import Mathlib

/-!
Shallow embedding of the Lyra Hocuspocus Server access-control layer.

The model follows the TypeScript sources:
  * `src/middleware/auth.ts`   — JWT issue / verify / document authorization
  * `src/middleware/rate-limit.ts` — windowed rate counters, per-IP connection gauge,
    HTTP rate-limit middleware
  * `src/middleware/room-isolation.ts` — membership cache and room access validation
  * `src/api/room.ts`          — register / add-member / get-token handlers
  * the server entry file      — the `onConnect` lifecycle hook

The state-store utility module (`utils/redis.ts`) is not part of the available
sources; its primitives are modelled from the specification (§4.1) and marked
`Modelled from the spec:` in their doc comments.

Time is measured in milliseconds (`Date.now()`), modelled as `Nat`.
Counter values stored in the string store are decimal integers in the source
(`parseInt`/`toString`); the model identifies such a value with the integer it
denotes and uses `Int` so that "never below zero" is a real statement.
-/

namespace Lyra

/-- The two roles of the `JwtPayload` TypeScript interface: `"host" | "guest"`. -/
inductive Role where
  | host
  | guest
deriving DecidableEq, Repr

/-- `JwtPayload` from src/middleware/auth.ts: userId, roomId, role and the
expiry instant `exp` in milliseconds. -/
structure JwtPayload where
  userId : String
  roomId : String
  role : Role
  exp : Nat
deriving DecidableEq, Repr

/-- Model of a JWT string.  `jwt.sign(payload, secret)` yields
`signed payload secret`; every other string (including the empty string) is
`malformed raw`.  Signature verification is modelled as sound and complete:
`jwt.verify` with the matching secret recovers exactly the signed payload and
fails on every other value. -/
inductive Jwt where
  | signed (payload : JwtPayload) (secret : String)
  | malformed (raw : String)
deriving DecidableEq, Repr

/-- JavaScript truthiness of the `token : string | undefined` argument of
`authenticateForDocument`: falsy exactly when the token is `undefined` or the
empty string.  A serialized signed JWT is never the empty string. -/
def tokenFalsy : Option Jwt → Bool
  | none => true
  | some (.malformed raw) => raw = ""
  | some (.signed _ _) => false

/-- The configuration fields of src/config.ts used by this layer, with the
defaults from `loadConfig`. -/
structure Config where
  jwtSecret : String
  rateLimitMessagesPerMinute : Nat
  rateLimitConnectionsPerIp : Nat
  rateLimitRoomMessagesPerMinute : Nat
  rateLimitHttpRequestsPerMinute : Nat
deriving DecidableEq, Repr

/-- The default configuration of `loadConfig` (no environment overrides). -/
def defaultConfig : Config :=
  { jwtSecret := "dev-secret-please-change-in-production"
    rateLimitMessagesPerMinute := 300
    rateLimitConnectionsPerIp := 100
    rateLimitRoomMessagesPerMinute := 1000
    rateLimitHttpRequestsPerMinute := 60 }

/-- `AuthResult` from src/middleware/auth.ts: a success flag, the optional
identity fields and an optional error message. -/
structure AuthResult where
  success : Bool
  userId : Option String
  roomId : Option String
  role : Option Role
  error : Option String
deriving DecidableEq, Repr

/-- The failure results `{ success: false, error }` built in auth.ts. -/
def AuthResult.failure (e : String) : AuthResult :=
  { success := false, userId := none, roomId := none, role := none, error := some e }

/-- The success result `{ success: true, userId, roomId, role }` built in auth.ts. -/
def AuthResult.okFor (u r : String) (ro : Role) : AuthResult :=
  { success := true, userId := some u, roomId := some r, role := some ro, error := none }

/-- The five characters of the literal `room:` in the regex `^room:([^:]+):`. -/
def roomPrefix : List Char := ['r', 'o', 'o', 'm', ':']

/-- Character-level translation of `documentName.match(/^room:([^:]+):/)` from
src/middleware/auth.ts: the input must start with `room:`, followed by a
non-empty run of non-colon characters (the capture), followed by a colon. -/
def extractRoomIdChars (l : List Char) : Option (List Char) :=
  if roomPrefix.isPrefixOf l then
    if ((l.drop 5).takeWhile (fun ch => ch ≠ ':')).length ≠ 0 ∧
        ((l.drop 5).takeWhile (fun ch => ch ≠ ':')).length < (l.drop 5).length then
      some ((l.drop 5).takeWhile (fun ch => ch ≠ ':'))
    else none
  else none

/-- `extractRoomIdFromDocumentName` from src/middleware/auth.ts. -/
def extractRoomIdFromDocumentName (d : String) : Option String :=
  (extractRoomIdChars d.data).map String.mk

/-- `verifyToken` from src/middleware/auth.ts, with the current time (the
`Date.now()` of the call) passed explicitly.  Mirrors the source order of
checks: signature, required payload fields (JS-falsy check, so the empty
string fails), then the manual expiry comparison `decoded.exp < Date.now()`
(guarded by the truthiness of `decoded.exp`). -/
def verifyToken (token : Jwt) (now : Nat) (cfg : Config) : AuthResult :=
  match token with
  | .malformed _ => AuthResult.failure "Invalid token"
  | .signed payload secret =>
    if secret ≠ cfg.jwtSecret then AuthResult.failure "Invalid token"
    else if payload.userId = "" ∨ payload.roomId = "" then
      AuthResult.failure "Invalid token payload"
    else if payload.exp ≠ 0 ∧ payload.exp < now then
      AuthResult.failure "Token expired"
    else AuthResult.okFor payload.userId payload.roomId payload.role

/-- Seven days in milliseconds: the fixed validity window used by `generateToken`. -/
def sevenDaysMs : Nat := 7 * 24 * 60 * 60 * 1000

/-- The `{ token, expiresAt }` return value of `generateToken`. -/
structure IssuedToken where
  token : Jwt
  expiresAt : Nat
deriving DecidableEq, Repr

/-- `generateToken` from src/middleware/auth.ts: signs
`{userId, roomId, role, exp := now + 7 days}` with the configured secret. -/
def generateToken (userId roomId : String) (role : Role) (now : Nat) (cfg : Config) :
    IssuedToken :=
  let expiresAt := now + sevenDaysMs
  { token := Jwt.signed { userId := userId, roomId := roomId, role := role, exp := expiresAt }
      cfg.jwtSecret
    expiresAt := expiresAt }

/-- `authenticateForDocument` from src/middleware/auth.ts: the `!token` falsy
check, then `verifyToken`, then room-id extraction, then the room-id match. -/
def authenticateForDocument (token : Option Jwt) (documentName : String) (now : Nat)
    (cfg : Config) : AuthResult :=
  if tokenFalsy token then AuthResult.failure "Missing authentication token"
  else
    match token with
    | none => AuthResult.failure "Missing authentication token"
    | some t =>
      let authResult := verifyToken t now cfg
      if ¬ authResult.success then authResult
      else
        match extractRoomIdFromDocumentName documentName with
        | none => AuthResult.failure "Invalid document name format"
        | some documentRoomId =>
          if authResult.roomId ≠ some documentRoomId then
            AuthResult.failure "Room ID mismatch"
          else authResult

lemma isPrefixOf_iff_exists_append {α : Type} [BEq α] [LawfulBEq α] :
    ∀ (p l : List α), p.isPrefixOf l = true ↔ ∃ t, l = p ++ t
  | [], l => by simp [List.isPrefixOf]
  | a :: p, [] => by simp [List.isPrefixOf]
  | a :: p, b :: l => by
    simp only [List.isPrefixOf, Bool.and_eq_true, beq_iff_eq,
      isPrefixOf_iff_exists_append p l]
    constructor
    · rintro ⟨rfl, t, rfl⟩
      exact ⟨t, rfl⟩
    · rintro ⟨t, ht⟩
      rw [List.cons_append] at ht
      cases ht
      exact ⟨rfl, t, rfl⟩

lemma takeWhile_append_cons_of_neg {α : Type} (p : α → Bool) (r s : List α)
    (hr : ∀ a ∈ r, p a = true) (a : α) (ha : p a = false) :
    (r ++ a :: s).takeWhile p = r := by
  rw [List.takeWhile_append_of_pos hr, List.takeWhile_cons_of_neg (by simp [ha]),
    List.append_nil]

lemma takeWhile_lt_length_decomp {α : Type} (p : α → Bool) (l : List α)
    (h : (l.takeWhile p).length < l.length) :
    ∃ a s, l = l.takeWhile p ++ a :: s ∧ p a = false := by
  have hsplit := List.takeWhile_append_dropWhile (p := p) (l := l)
  cases hdw : l.dropWhile p with
  | nil =>
    have hl : l.takeWhile p = l := by
      have := hsplit
      rw [hdw, List.append_nil] at this
      exact this
    rw [hl] at h
    exact absurd h (lt_irrefl _)
  | cons a s =>
    refine ⟨a, s, ?_, ?_⟩
    · conv_lhs => rw [← hsplit]
      rw [hdw]
    · have hne : l.dropWhile p ≠ [] := by simp [hdw]
      have := List.head_dropWhile_not p l hne
      simpa [hdw] using this

lemma extractRoomIdChars_eq_some_iff (l r : List Char) :
    extractRoomIdChars l = some r ↔
      r ≠ [] ∧ (∀ ch ∈ r, ch ≠ ':') ∧ ∃ s, l = roomPrefix ++ (r ++ ':' :: s) := by
  constructor
  · intro h
    unfold extractRoomIdChars at h
    by_cases hp : roomPrefix.isPrefixOf l = true
    · rw [if_pos hp] at h
      obtain ⟨t, rfl⟩ := (isPrefixOf_iff_exists_append roomPrefix l).mp hp
      have hdrop : (roomPrefix ++ t).drop 5 = t := List.drop_left' (by rfl)
      rw [hdrop] at h
      by_cases hg : (t.takeWhile (fun ch => ch ≠ ':')).length ≠ 0 ∧
          (t.takeWhile (fun ch => ch ≠ ':')).length < t.length
      · rw [if_pos hg] at h
        have hr' : t.takeWhile (fun ch => ch ≠ ':') = r := Option.some_inj.mp h
        obtain ⟨a, s, hts, hpa⟩ := takeWhile_lt_length_decomp _ t hg.2
        have ha : a = ':' := by simpa using hpa
        subst ha
        rw [hr'] at hts hg
        refine ⟨?_, ?_, s, ?_⟩
        · intro hr
          rw [hr] at hg
          exact hg.1 rfl
        · intro ch hch
          rw [← hr'] at hch
          simpa using List.mem_takeWhile_imp hch
        · rw [hts]
      · rw [if_neg hg] at h
        exact absurd h (by simp)
    · rw [if_neg hp] at h
      exact absurd h (by simp)
  · rintro ⟨hne, hfree, s, rfl⟩
    have hp : roomPrefix.isPrefixOf (roomPrefix ++ (r ++ ':' :: s)) = true :=
      (isPrefixOf_iff_exists_append _ _).mpr ⟨r ++ ':' :: s, rfl⟩
    have hdrop : (roomPrefix ++ (r ++ ':' :: s)).drop 5 = r ++ ':' :: s :=
      List.drop_left' (by rfl)
    have htw : (r ++ ':' :: s).takeWhile (fun ch => ch ≠ ':') = r :=
      takeWhile_append_cons_of_neg _ r s (fun a ha => by simp [hfree a ha]) ':' (by simp)
    unfold extractRoomIdChars
    rw [if_pos hp, hdrop, htw, if_pos]
    refine ⟨?_, ?_⟩
    · simpa using hne
    · rw [List.length_append, List.length_cons]
      omega

lemma string_data_append (a b : String) : (a ++ b).data = a.data ++ b.data := by
  cases a
  cases b
  rfl

lemma string_eq_iff_data {a b : String} : a = b ↔ a.data = b.data := by
  constructor
  · intro h
    rw [h]
  · intro h
    cases a
    cases b
    exact congrArg String.mk h

lemma verifyToken_success_form (t : Jwt) (now : Nat) (cfg : Config)
    (h : (verifyToken t now cfg).success = true) :
    ∃ p : JwtPayload, t = Jwt.signed p cfg.jwtSecret ∧
      verifyToken t now cfg = AuthResult.okFor p.userId p.roomId p.role := by
  cases t with
  | malformed raw => simp [verifyToken, AuthResult.failure] at h
  | signed p secret =>
    simp only [verifyToken] at h ⊢
    split_ifs at h ⊢ with h1 h2 h3
    · simp [AuthResult.failure] at h
    · simp [AuthResult.failure] at h
    · simp [AuthResult.failure] at h
    · exact ⟨p, by simp [of_not_not h1], rfl⟩

lemma room_literal_data : "room:".data = roomPrefix := by decide

lemma colon_literal_data : ":".data = [':'] := by decide

lemma mk_data_eq (r : String) : String.mk r.data = r := rfl

lemma extractRoomId_string_iff (d r : String) :
    extractRoomIdFromDocumentName d = some r ↔
      r ≠ "" ∧ (∀ ch ∈ r.data, ch ≠ ':') ∧ ∃ s : String, d = "room:" ++ r ++ ":" ++ s := by
  unfold extractRoomIdFromDocumentName
  constructor
  · intro h
    obtain ⟨rl, hrl, hmk⟩ := Option.map_eq_some'.mp h
    obtain ⟨hne, hfree, sl, hl⟩ := (extractRoomIdChars_eq_some_iff d.data rl).mp hrl
    subst hmk
    refine ⟨?_, hfree, String.mk sl, ?_⟩
    · intro hx
      exact hne (string_eq_iff_data.mp hx)
    · apply string_eq_iff_data.mpr
      rw [string_data_append, string_data_append, string_data_append, hl, room_literal_data]
      simp [List.append_assoc]
  · rintro ⟨hne, hfree, s, rfl⟩
    have hl : ("room:" ++ r ++ ":" ++ s).data = roomPrefix ++ (r.data ++ ':' :: s.data) := by
      rw [string_data_append, string_data_append, string_data_append, room_literal_data]
      simp [List.append_assoc]
    rw [hl, (extractRoomIdChars_eq_some_iff _ r.data).mpr
      ⟨fun hx => hne (string_eq_iff_data.mpr hx), hfree, s.data, rfl⟩]
    rw [Option.map_some', mk_data_eq]

/-- C10: `extractRoomIdFromDocumentName d` returns a roomId `r` iff `d` begins
with `room:` followed by a non-empty, colon-free `r` followed by another `:`;
in particular `room:<id>` with no trailing `:<suffix>` and `room::x` yield no
roomId, and `authenticateForDocument` rejects such names as a malformed
target even when the supplied token verifies successfully. -/
theorem extractRoomId_spec :
    (∀ (d r : String), extractRoomIdFromDocumentName d = some r ↔
        r ≠ "" ∧ (∀ ch ∈ r.data, ch ≠ ':') ∧ ∃ s : String, d = "room:" ++ r ++ ":" ++ s)
    ∧ (∀ roomId : String, roomId ≠ "" → (∀ ch ∈ roomId.data, ch ≠ ':') →
        extractRoomIdFromDocumentName ("room:" ++ roomId) = none)
    ∧ extractRoomIdFromDocumentName "room::x" = none
    ∧ (∀ (t : Jwt) (now : Nat) (cfg : Config) (d : String),
        (verifyToken t now cfg).success = true →
        extractRoomIdFromDocumentName d = none →
        authenticateForDocument (some t) d now cfg
          = AuthResult.failure "Invalid document name format") := by
  refine ⟨extractRoomId_string_iff, ?_, by decide, ?_⟩
  · intro roomId hne hfree
    cases h : extractRoomIdFromDocumentName ("room:" ++ roomId) with
    | none => rfl
    | some r =>
      exfalso
      obtain ⟨-, -, s, hs⟩ := (extractRoomId_string_iff _ r).mp h
      have hdata : ("room:" ++ roomId).data = ("room:" ++ r ++ ":" ++ s).data :=
        string_eq_iff_data.mp hs
      rw [string_data_append, string_data_append, string_data_append,
        string_data_append, room_literal_data] at hdata
      have hdata' : roomPrefix ++ roomId.data = roomPrefix ++ (r.data ++ ':' :: s.data) := by
        rw [hdata, colon_literal_data]
        simp [List.append_assoc]
      have : roomId.data = r.data ++ ':' :: s.data := List.append_cancel_left hdata'
      have hmem : ':' ∈ roomId.data := by
        rw [this]
        simp
      exact hfree ':' hmem rfl
  · intro t now cfg d hsucc hextract
    obtain ⟨p, rfl, hform⟩ := verifyToken_success_form t now cfg hsucc
    simp [authenticateForDocument, tokenFalsy, hsucc, hextract]

/-- Witness for `extractRoomId_spec`: the hypotheses are satisfiable — at the
concrete room id `abc`, the suffix-less document name `room:abc` yields no
roomId. -/
theorem extractRoomId_spec_witness :
    extractRoomIdFromDocumentName ("room:" ++ "abc") = none :=
  extractRoomId_spec.2.1 "abc" (by decide) (by decide)

/-- C4 (counterexample): the claim quantifies over every `(userId, roomId, role)`,
but for the empty userId the round trip fails before the expiry instant:
`verifyToken` rejects the payload (`Invalid token payload`) because the empty
string fails the required-field truthiness check, instead of succeeding with
the same fields. -/
theorem token_roundtrip_counterexample :
    verifyToken (generateToken "" "r" Role.guest 0 defaultConfig).token 0 defaultConfig
      = AuthResult.failure "Invalid token payload"
    ∧ (0 : Nat) ≤ (generateToken "" "r" Role.guest 0 defaultConfig).expiresAt
    ∧ AuthResult.failure "Invalid token payload" ≠ AuthResult.okFor "" "r" Role.guest := by
  decide

/-- C4 (amended): for every `(userId, roomId, role)` with `userId` and `roomId`
non-empty, `generateToken` returns an expiry exactly 7 days after issuance,
`verifyToken` succeeds with exactly the same fields at every instant up to and
including the expiry instant, and returns the `Token expired` failure strictly
after it. -/
theorem token_roundtrip_spec (userId roomId : String) (role : Role) (now : Nat)
    (cfg : Config) (hu : userId ≠ "") (hr : roomId ≠ "") :
    (generateToken userId roomId role now cfg).expiresAt = now + sevenDaysMs
    ∧ (∀ t : Nat, t ≤ (generateToken userId roomId role now cfg).expiresAt →
        verifyToken (generateToken userId roomId role now cfg).token t cfg
          = AuthResult.okFor userId roomId role)
    ∧ (∀ t : Nat, (generateToken userId roomId role now cfg).expiresAt < t →
        verifyToken (generateToken userId roomId role now cfg).token t cfg
          = AuthResult.failure "Token expired") := by
  refine ⟨rfl, ?_, ?_⟩
  · intro t ht
    simp only [generateToken] at ht ⊢
    simp only [verifyToken]
    rw [if_neg (by simp), if_neg (by simp [hu, hr]), if_neg]
    rintro ⟨-, hlt⟩
    simp only [sevenDaysMs] at ht hlt
    omega
  · intro t ht
    simp only [generateToken] at ht ⊢
    simp only [verifyToken]
    rw [if_neg (by simp), if_neg (by simp [hu, hr]), if_pos]
    refine ⟨by simp [sevenDaysMs], ?_⟩
    simpa using ht

/-- Witness for `token_roundtrip_spec`: a token issued at time 0 for
`("u1", "r1", guest)` still verifies to the same fields exactly at the expiry
instant. -/
theorem token_roundtrip_spec_witness :
    verifyToken (generateToken "u1" "r1" Role.guest 0 defaultConfig).token
      sevenDaysMs defaultConfig = AuthResult.okFor "u1" "r1" Role.guest :=
  (token_roundtrip_spec "u1" "r1" Role.guest 0 defaultConfig (by decide)
    (by decide)).2.1 sevenDaysMs (by decide)

/-- C5 (counterexample): a supplied empty-string token fails verification
(`verifyToken` on it is unsuccessful), yet `authenticateForDocument` returns
the missing-token error rather than the invalid-token error the claim
requires for supplied tokens that fail verification. -/
theorem authenticateForDocument_counterexample :
    authenticateForDocument (some (Jwt.malformed "")) "room:r1:main" 0 defaultConfig
      = AuthResult.failure "Missing authentication token"
    ∧ (verifyToken (Jwt.malformed "") 0 defaultConfig).success = false
    ∧ AuthResult.failure "Missing authentication token"
      ≠ verifyToken (Jwt.malformed "") 0 defaultConfig := by
  decide

/-- C5 (amended): `authenticateForDocument` returns exactly one of, in order:
the missing-token error when no token is supplied or the supplied token is
the empty string; otherwise the result of `verifyToken` (the invalid-token or
expired failure) exactly when verification fails; otherwise the
malformed-target error when no roomId can be parsed from the document name;
otherwise the room-mismatch error when the parsed roomId differs from the
token's roomId; and otherwise success carrying the token's
`{userId, roomId, role}`. -/
theorem authenticateForDocument_spec (token : Option Jwt) (documentName : String)
    (now : Nat) (cfg : Config) :
    (tokenFalsy token = true →
      authenticateForDocument token documentName now cfg
        = AuthResult.failure "Missing authentication token")
    ∧ (∀ t, token = some t → tokenFalsy token = false →
        (verifyToken t now cfg).success = false →
        authenticateForDocument token documentName now cfg = verifyToken t now cfg)
    ∧ (∀ t, token = some t →
        (verifyToken t now cfg).success = true →
        extractRoomIdFromDocumentName documentName = none →
        authenticateForDocument token documentName now cfg
          = AuthResult.failure "Invalid document name format")
    ∧ (∀ t r, token = some t →
        (verifyToken t now cfg).success = true →
        extractRoomIdFromDocumentName documentName = some r →
        (verifyToken t now cfg).roomId ≠ some r →
        authenticateForDocument token documentName now cfg
          = AuthResult.failure "Room ID mismatch")
    ∧ (∀ (t : Jwt) (r : String) (p : JwtPayload), token = some t →
        verifyToken t now cfg = AuthResult.okFor p.userId p.roomId p.role →
        extractRoomIdFromDocumentName documentName = some r →
        p.roomId = r →
        authenticateForDocument token documentName now cfg
          = AuthResult.okFor p.userId p.roomId p.role) := by
  refine ⟨?_, ?_, ?_, ?_, ?_⟩
  · intro hf
    simp [authenticateForDocument, hf]
  · rintro t rfl hf hfail
    simp [authenticateForDocument, hf, hfail]
  · rintro t rfl hsucc hnone
    have hf : tokenFalsy (some t) = false := by
      obtain ⟨p, rfl, -⟩ := verifyToken_success_form t now cfg hsucc
      rfl
    simp [authenticateForDocument, hf, hsucc, hnone]
  · rintro t r rfl hsucc hsome hmis
    have hf : tokenFalsy (some t) = false := by
      obtain ⟨p, rfl, -⟩ := verifyToken_success_form t now cfg hsucc
      rfl
    simp [authenticateForDocument, hf, hsucc, hsome, hmis]
  · rintro t r p rfl hform hsome hrid
    have hsucc : (verifyToken t now cfg).success = true := by
      rw [hform]
      rfl
    have hf : tokenFalsy (some t) = false := by
      obtain ⟨q, rfl, -⟩ := verifyToken_success_form t now cfg hsucc
      rfl
    have hroom : (verifyToken t now cfg).roomId = some r := by
      rw [hform, ← hrid]
      rfl
    simp [authenticateForDocument, hf, hsucc, hsome, hroom, hform, AuthResult.okFor, hrid]

/-- A concrete payload used by witnesses: user `u1`, room `r1`, guest,
expiring seven days after epoch. -/
def demoPayload : JwtPayload :=
  { userId := "u1", roomId := "r1", role := Role.guest, exp := sevenDaysMs }

/-- Witness for `authenticateForDocument_spec`: a valid token for room `r1`
authenticates the document `room:r1:main` and carries its fields through. -/
theorem authenticateForDocument_spec_witness :
    authenticateForDocument (some (Jwt.signed demoPayload defaultConfig.jwtSecret))
      "room:r1:main" 0 defaultConfig = AuthResult.okFor "u1" "r1" Role.guest :=
  (authenticateForDocument_spec (some (Jwt.signed demoPayload defaultConfig.jwtSecret))
      "room:r1:main" 0 defaultConfig).2.2.2.2
    (Jwt.signed demoPayload defaultConfig.jwtSecret) "r1" demoPayload
    rfl (by decide) (by decide) rfl

end Lyra










